import Mathlib

/-!
Verification development for the keto relationship-based authorization
service.  The write/patch facade is embedded from
src/internal/relationtuple/transact_server.go; the check engine, tuple
store operations and identifier mapper are not shipped in this source
tree (only the engine's test suite is), so they are modelled from the
specification, as marked on each definition.
-/

/-- Subject of a relation tuple: either an atomic identifier (SubjectID)
or a set of subjects given by another namespace, object and relation
(SubjectSet).  Identifiers are modelled as the external strings; the
deterministic string-to-UUID mapping of the identifier mapper is
injective, so nothing is lost. -/
inductive Subject where
  | subjectID (id : String)
  | subjectSet (ns obj rel : String)
deriving DecidableEq, Repr

/-- Internal relation tuple (namespace, object, relation, subject). -/
structure RelationTuple where
  ns : String
  obj : String
  rel : String
  subject : Subject
deriving DecidableEq, Repr

/-- Modelled from the spec: step 1 (direct check) match of the check
engine, section 4.4.  A stored tuple directly matches the checked
subject when its subject is identical, or, for a SubjectID subject, when
the stored subject is a SubjectSet with empty (or omitted) relation
whose object equals the checked identifier. -/
def directMatch (t : RelationTuple) (s : Subject) : Bool :=
  decide (t.subject = s) ||
  (match s, t.subject with
   | .subjectID i, .subjectSet _ o r => decide (r = "" ∧ o = i)
   | _, _ => false)

/-- Store query by pattern: all tuples with the given namespace, object
and relation.  Steps 1 and 2 of the engine both query this pattern (the
subject filters of the two queries are applied per tuple below). -/
def patternQuery (store : List RelationTuple) (ns obj rel : String) : List RelationTuple :=
  store.filter fun t => decide (t.ns = ns ∧ t.obj = obj ∧ t.rel = rel)

/-- Modelled from the spec: the recursive membership check of the check
engine (section 4.4), whose source is not in this tree (only its test
suite is).  A call entered with budget 0 returns false without querying
the store; otherwise the engine looks for a direct match (step 1) and
recursively expands, with budget decremented, through every SubjectSet
subject that carries a non-empty relation (step 2).  The per-query
visited set of section 4.4 is a pruning of revisited nodes that cannot
change the boolean result of this budget-bounded recursion, and the
concurrent fan-out does not affect the boolean result either (section
4.4), so both are omitted; the function is total, so termination on
cyclic tuple graphs holds by construction. -/
def checkRec (store : List RelationTuple) :
    String → String → String → Subject → Nat → Bool
  | _, _, _, _, 0 => false
  | ns, obj, rel, s, n+1 =>
    (patternQuery store ns obj rel).any (fun t => directMatch t s) ||
    (patternQuery store ns obj rel).any (fun t =>
      match t.subject with
      | .subjectSet ns2 obj2 rel2 =>
        if rel2 ≠ "" then checkRec store ns2 obj2 rel2 s n else false
      | .subjectID _ => false)

/-- Modelled from the spec: the configured global max_read_depth
defaults to 5 (sections 4.4 and 4.6). -/
def defaultMaxReadDepth : Nat := 5

/-- Modelled from the spec: resolution of the effective depth budget
from the caller-supplied per-request depth d and the configured global
max_read_depth (section 4.4): if d is non-positive or exceeds the
global maximum, the global maximum is used, otherwise d. -/
def effectiveDepth (d : Int) (gmax : Nat) : Nat :=
  if d ≤ 0 ∨ (gmax : Int) < d then gmax else d.toNat

/-- Modelled from the spec: the public entry point CheckIsMember
(section 4.4).  The global max_read_depth is read from the
configuration on every call (section 9, configuration reloads), which
this model renders by passing the current value gmax per call. -/
def CheckIsMember (store : List RelationTuple) (gmax : Nat) (t : RelationTuple) (d : Int) : Bool :=
  checkRec store t.ns t.obj t.rel t.subject (effectiveDepth d gmax)

/-- Fixture of the test "respects max depth": user has relation access
through being an owner through being an admin. -/
def maxDepthStore : List RelationTuple :=
  [⟨"test", "object", "admin", .subjectID "user"⟩,
   ⟨"test", "object", "owner", .subjectSet "test" "object" "admin"⟩,
   ⟨"test", "object", "access", .subjectSet "test" "object" "owner"⟩]

/-- Target tuple of the test "respects max depth". -/
def mdTarget : RelationTuple := ⟨"test", "object", "access", .subjectID "user"⟩

/-- Modelled from the spec: the only error kinds the check engine can
report (section 4.4, public contract). -/
inductive EngineError where
  | storeUnavailable
  | invalidTuple
  | cancelled
deriving DecidableEq, Repr

/-- Short-circuiting monadic disjunction over a list: the first error or
the first true sub-result wins, later elements are not consulted. -/
def anyE (f : α → Except ε Bool) : List α → Except ε Bool
  | [] => .ok false
  | a :: l =>
    match f a with
    | .error e => .error e
    | .ok true => .ok true
    | .ok false => anyE f l

/-- Modelled from the spec: the recursive check with an explicit
fallible store.  The store is abstracted as a pattern query that either
returns the matching tuples or fails; the engine propagates store
errors and adds none of its own, and a call entered with budget 0
returns false without issuing any query. -/
def checkRecE (q : String → String → String → Except EngineError (List RelationTuple)) :
    String → String → String → Subject → Nat → Except EngineError Bool
  | _, _, _, _, 0 => .ok false
  | ns, obj, rel, s, n+1 =>
    match q ns obj rel with
    | .error e => .error e
    | .ok page =>
      if page.any (fun t => directMatch t s) then .ok true
      else
        anyE (fun t =>
          match t.subject with
          | .subjectSet ns2 obj2 rel2 =>
            if rel2 ≠ "" then checkRecE q ns2 obj2 rel2 s n else .ok false
          | .subjectID _ => .ok false) page

/-- Pattern query over an always-available pure store. -/
def okQuery (store : List RelationTuple) (ns obj rel : String) :
    Except EngineError (List RelationTuple) :=
  .ok (patternQuery store ns obj rel)

/-- Modelled from the spec: CheckIsMember over the fallible store. -/
def CheckIsMemberE (q : String → String → String → Except EngineError (List RelationTuple))
    (gmax : Nat) (t : RelationTuple) (d : Int) : Except EngineError Bool :=
  checkRecE q t.ns t.obj t.rel t.subject (effectiveDepth d gmax)

lemma anyE_ok (f : α → Except ε Bool) (g : α → Bool) :
    ∀ l : List α, (∀ a ∈ l, f a = .ok (g a)) → anyE f l = .ok (l.any g)
  | [], _ => rfl
  | a :: l, h => by
    have ha := h a (List.mem_cons_self a l)
    have hl := anyE_ok f g l (fun b hb => h b (List.mem_cons_of_mem a hb))
    by_cases hg : g a
    · simp [anyE, ha, hg]
    · simp only [Bool.not_eq_true] at hg
      simp [anyE, ha, hg, hl]

/-- Over an always-available store the fallible engine never reports an
error and agrees with the pure engine. -/
lemma checkRecE_okQuery (store : List RelationTuple) :
    ∀ (n : Nat) (ns obj rel : String) (s : Subject),
      checkRecE (okQuery store) ns obj rel s n = .ok (checkRec store ns obj rel s n)
  | 0, _, _, _, _ => rfl
  | n+1, ns, obj, rel, s => by
    by_cases hd : (patternQuery store ns obj rel).any (fun t => directMatch t s)
    · simp [checkRecE, checkRec, okQuery, hd]
    · simp only [Bool.not_eq_true] at hd
      simp only [checkRecE, checkRec, okQuery, hd, Bool.false_or, Bool.false_eq_true,
        if_false]
      exact anyE_ok _ _ _ (fun t _ => by
        cases ht : t.subject with
        | subjectID i => rfl
        | subjectSet ns2 obj2 rel2 =>
          by_cases hr : rel2 = "" <;>
            simp [hr, checkRecE_okQuery store n])

/-- A stored tuple in the pattern page that directly matches the
subject makes the check true at any positive budget. -/
lemma checkRec_of_direct (store : List RelationTuple) {ns obj rel : String} {s : Subject}
    {t : RelationTuple} (ht : t ∈ patternQuery store ns obj rel)
    (hd : directMatch t s = true) (n : Nat) :
    checkRec store ns obj rel s (n+1) = true := by
  simp only [checkRec, Bool.or_eq_true, List.any_eq_true]
  exact Or.inl ⟨t, ht, hd⟩

/-- A stored tuple in the pattern page whose subject is a SubjectSet
with non-empty relation, membership in which holds at budget n, makes
the check true at budget n+1. -/
lemma checkRec_of_expand (store : List RelationTuple) {ns obj rel : String} {s : Subject}
    {t : RelationTuple} {ns2 obj2 rel2 : String}
    (ht : t ∈ patternQuery store ns obj rel)
    (hs : t.subject = .subjectSet ns2 obj2 rel2) (hr : rel2 ≠ "") {n : Nat}
    (hc : checkRec store ns2 obj2 rel2 s n = true) :
    checkRec store ns obj rel s (n+1) = true := by
  simp only [checkRec, Bool.or_eq_true, List.any_eq_true]
  refine Or.inr ⟨t, ht, ?_⟩
  rw [hs]
  simp [hr, hc]

lemma checkRec_succ (store : List RelationTuple) :
    ∀ (n : Nat) (ns obj rel : String) (s : Subject),
      checkRec store ns obj rel s n = true → checkRec store ns obj rel s (n+1) = true
  | 0, ns, obj, rel, s, h => by simp [checkRec] at h
  | n+1, ns, obj, rel, s, h => by
    simp only [checkRec, Bool.or_eq_true, List.any_eq_true] at h
    rcases h with ⟨t, ht, hd⟩ | ⟨t, ht, hx⟩
    · exact checkRec_of_direct store ht hd (n+1)
    · cases hs : t.subject with
      | subjectID i => rw [hs] at hx; simp at hx
      | subjectSet ns2 obj2 rel2 =>
        rw [hs] at hx
        by_cases hr : rel2 = ""
        · simp [hr] at hx
        · simp [hr] at hx
          exact checkRec_of_expand store ht hs hr
            (checkRec_succ store n ns2 obj2 rel2 s hx)

/-- The pure engine is monotone in the raw depth budget. -/
lemma checkRec_mono (store : List RelationTuple) (ns obj rel : String) (s : Subject)
    {n m : Nat} (h : n ≤ m) (ht : checkRec store ns obj rel s n = true) :
    checkRec store ns obj rel s m = true := by
  induction m, h using Nat.le_induction with
  | base => exact ht
  | succ m hm ih => exact checkRec_succ store m ns obj rel s ih

/-- The effective budget is the smaller of the caller value (when
positive) and the global maximum. -/
lemma effectiveDepth_min (d : Int) (g : Nat) :
    effectiveDepth d g = if 0 < d then min d.toNat g else g := by
  unfold effectiveDepth
  split <;> split <;> omega

lemma effectiveDepth_mono {d d' : Int} (g : Nat) (h0 : 0 < d) (h : d ≤ d') :
    effectiveDepth d g ≤ effectiveDepth d' g := by
  unfold effectiveDepth
  split <;> split <;> omega

lemma effectiveDepth_pos {g : Nat} (d : Int) (h : 0 < g) : 0 < effectiveDepth d g := by
  unfold effectiveDepth
  split <;> omega

/-- A SubjectID that no stored tuple's subject matches directly is a
member of no set, at any depth: the engine never fabricates membership
for an unreachable subject, no matter how the SubjectSet graph (cyclic
or not) is shaped. -/
lemma checkRec_unreachable (store : List RelationTuple) (u : String)
    (h : ∀ t ∈ store, directMatch t (.subjectID u) = false) :
    ∀ (n : Nat) (ns obj rel : String), checkRec store ns obj rel (.subjectID u) n = false
  | 0, _, _, _ => rfl
  | n+1, ns, obj, rel => by
    cases hc : checkRec store ns obj rel (.subjectID u) (n+1) with
    | false => rfl
    | true =>
      exfalso
      simp only [checkRec, Bool.or_eq_true, List.any_eq_true] at hc
      rcases hc with ⟨t, ht, hd⟩ | ⟨t, ht, hx⟩
      · rw [h t (List.mem_of_mem_filter ht)] at hd
        exact Bool.false_ne_true hd
      · cases hs : t.subject with
        | subjectID i => rw [hs] at hx; simp at hx
        | subjectSet ns2 obj2 rel2 =>
          rw [hs] at hx
          by_cases hr : rel2 = ""
          · simp [hr] at hx
          · simp [hr] at hx
            rw [checkRec_unreachable store u h n ns2 obj2 rel2] at hx
            exact Bool.false_ne_true hx

/-- Fixture of the test "rejects transitive relation", generalized over
the identifiers: a parent edge with an empty-relation SubjectSet and a
direct access tuple on the parent directory. -/
def transStore (ns file dir user : String) : List RelationTuple :=
  [⟨ns, file, "parent", .subjectSet ns dir ""⟩,
   ⟨ns, dir, "access", .subjectID user⟩]

/-- Fixture of the test "case=circular tuples", generalized over the
identifiers: three connected tuples forming the cycle a to b to c back
to a in the SubjectSet graph. -/
def cycleStore (ns a b c : String) : List RelationTuple :=
  [⟨ns, a, "connected", .subjectSet ns b "connected"⟩,
   ⟨ns, b, "connected", .subjectSet ns c "connected"⟩,
   ⟨ns, c, "connected", .subjectSet ns a "connected"⟩]

/-- Four-level chain: user is admin, admins are owners, owners have
access, access holders are super.  Reaching user from super needs a
budget of 4. -/
def chainStore : List RelationTuple :=
  [⟨"t", "o", "admin", .subjectID "user"⟩,
   ⟨"t", "o", "owner", .subjectSet "t" "o" "admin"⟩,
   ⟨"t", "o", "access", .subjectSet "t" "o" "owner"⟩,
   ⟨"t", "o", "super", .subjectSet "t" "o" "access"⟩]

/-- Target tuple for the four-level chain. -/
def chainTarget : RelationTuple := ⟨"t", "o", "super", .subjectID "user"⟩

/-- Split a character list at the first occurrence of c, returning the
parts before and after it, or none when c does not occur. -/
def splitFirst (c : Char) : List Char → Option (List Char × List Char)
  | [] => none
  | x :: xs =>
    if x = c then some ([], xs)
    else
      match splitFirst c xs with
      | none => none
      | some (pre, post) => some (x :: pre, post)

/-- Modelled from the spec: the textual subject grammar of section 6
(the parsing code lives in the ketoapi package, which is not in this
source tree).  A subject string is either a bare identifier, or a
SubjectSet written ns, colon, obj, optionally followed by a hash and an
optional relation; an absent hash and an empty relation after the hash
both denote the empty relation. -/
def parseSubject (s : List Char) : Subject :=
  match splitFirst ':' s with
  | none => .subjectID s.asString
  | some (pre, post) =>
    match splitFirst '#' post with
    | none => .subjectSet pre.asString post.asString ""
    | some (o, r) => .subjectSet pre.asString o.asString r.asString

lemma splitFirst_not_mem {c : Char} : ∀ {l : List Char}, c ∉ l → splitFirst c l = none
  | [], _ => rfl
  | x :: xs, h => by
    have hx : ¬ x = c := fun he => h (he ▸ List.mem_cons_self x xs)
    have hxs : c ∉ xs := fun hm => h (List.mem_cons_of_mem x hm)
    simp [splitFirst, hx, splitFirst_not_mem hxs]

lemma splitFirst_append {c : Char} :
    ∀ {pre : List Char} (post : List Char), c ∉ pre →
      splitFirst c (pre ++ c :: post) = some (pre, post)
  | [], post, _ => by simp [splitFirst]
  | x :: xs, post, h => by
    have hx : ¬ x = c := fun he => h (he ▸ List.mem_cons_self x xs)
    have hxs : c ∉ xs := fun hm => h (List.mem_cons_of_mem x hm)
    simp [splitFirst, hx, splitFirst_append post hxs]

/-- A single stored tuple is a direct match for a check of the same
tuple, at any positive global depth limit. -/
lemma CheckIsMember_direct_self (n o r : String) (s : Subject) (g : Nat) (d : Int)
    (hg : 0 < g) : CheckIsMember [⟨n, o, r, s⟩] g ⟨n, o, r, s⟩ d = true := by
  have hpos := effectiveDepth_pos (g := g) d hg
  simp only [CheckIsMember]
  cases hE : effectiveDepth d g with
  | zero => rw [hE] at hpos; omega
  | succ m =>
    refine checkRec_of_direct (t := ⟨n, o, r, s⟩) _ ?_ ?_ m
    · simp [patternQuery]
    · simp [directMatch]

/-- C1: CheckIsMember resolves the effective depth budget from the
per-request depth d and the configured global max_read_depth gmax
(default 5): the result is gmax when d is non-positive or exceeds gmax
and d otherwise, i.e. the smaller of the caller value (when positive)
and the global maximum wins; the global limit is read on every call, so
a runtime change of max_read_depth takes effect for subsequent calls,
as the four evaluations of the max-depth test scenario show (gmax 5
with d 2 and 3, then gmax lowered to 2, then raised to 3 with d 0). -/
theorem C1_depth_budget_resolution :
    (∀ (d : Int) (g : Nat), effectiveDepth d g = if 0 < d then min d.toNat g else g)
  ∧ (∀ (store : List RelationTuple) (g : Nat) (t : RelationTuple) (d : Int),
      CheckIsMember store g t d = checkRec store t.ns t.obj t.rel t.subject (effectiveDepth d g))
  ∧ defaultMaxReadDepth = 5
  ∧ CheckIsMember maxDepthStore defaultMaxReadDepth mdTarget 2 = false
  ∧ CheckIsMember maxDepthStore defaultMaxReadDepth mdTarget 3 = true
  ∧ CheckIsMember maxDepthStore 2 mdTarget 3 = false
  ∧ CheckIsMember maxDepthStore 3 mdTarget 0 = true := by
  exact ⟨effectiveDepth_min, fun _ _ _ _ => rfl, rfl, by decide, by decide, by decide, by decide⟩

/-- C2: an empty-relation SubjectSet edge does not enable transitive
inference from one relation to another: with exactly the tuples
file-parent-dir (SubjectSet subject with empty relation) and
dir-access-user stored, checking file-access-user returns false for
every per-request depth and every global limit. -/
theorem C2_reject_transitive_empty_relation (ns file dir user : String) (g : Nat) (d : Int)
    (hfd : file ≠ dir) :
    CheckIsMember (transStore ns file dir user) g ⟨ns, file, "access", .subjectID user⟩ d = false := by
  have hpage : patternQuery (transStore ns file dir user) ns file "access" = [] := by
    simp [patternQuery, transStore, Ne.symm hfd]
  simp only [CheckIsMember]
  cases hE : effectiveDepth d g with
  | zero => rfl
  | succ m => simp [checkRec, hpage]

/-- C2 witness at the concrete identifiers of the test "rejects
transitive relation". -/
theorem C2_witness :
    CheckIsMember (transStore "_" "file" "dir" "user") 5
      ⟨"_", "file", "access", .subjectID "user"⟩ 0 = false :=
  C2_reject_transitive_empty_relation "_" "file" "dir" "user" 5 0 (by decide)

/-- C3: the budget-bounded engine is a total function, so any set of
stored tuples, cyclic or not, terminates; and a SubjectID subject that
no stored tuple matches directly is found a member of no set at any
depth.  In particular, for three connected tuples forming the cycle
a to b to c back to a, checking any SubjectID subject against
a-connected returns false for every depth and global limit. -/
theorem C3_cycle_safety :
    (∀ (store : List RelationTuple) (u : String),
        (∀ t ∈ store, directMatch t (.subjectID u) = false) →
        ∀ (ns obj rel : String) (n : Nat),
          checkRec store ns obj rel (.subjectID u) n = false)
  ∧ (∀ (ns a b c subj : String) (g : Nat) (d : Int),
      CheckIsMember (cycleStore ns a b c) g ⟨ns, a, "connected", .subjectID subj⟩ d = false) := by
  constructor
  · intro store u hu ns obj rel n
    exact checkRec_unreachable store u hu n ns obj rel
  · intro ns a b c subj g d
    have hu : ∀ t ∈ cycleStore ns a b c, directMatch t (.subjectID subj) = false := by
      intro t ht
      simp only [cycleStore, List.mem_cons, List.not_mem_nil, or_false] at ht
      rcases ht with h1 | h1 | h1 <;> subst h1 <;> simp [directMatch]
    simp only [CheckIsMember]
    exact checkRec_unreachable _ subj hu _ ns a "connected"

/-- C3 witness: the cycle of the test "case=circular tuples" with the
third station as checked subject, at an arbitrary concrete budget. -/
theorem C3_witness :
    checkRec (cycleStore "7743" "sendlingerTor" "odeonsplatz" "centralStation")
      "7743" "sendlingerTor" "connected" (.subjectID "centralStation") 9 = false :=
  C3_cycle_safety.1 (cycleStore "7743" "sendlingerTor" "odeonsplatz" "centralStation")
    "centralStation" (by decide) "7743" "sendlingerTor" "connected" 9

/-- C5: depth exhaustion is not an error.  A recursive check entered
with budget 0 returns an errorless false without querying the store
(the result holds for every store query, including one that always
fails); over an available store the engine adds no errors of its own
and agrees with the pure engine, its only error kinds being
store-unavailable, invalid-tuple and cancelled; and the max-depth test
scenario that exhausts its budget gets ok false, not an error. -/
theorem C5_depth_exhaustion_not_error :
    (∀ (q : String → String → String → Except EngineError (List RelationTuple))
        (ns obj rel : String) (s : Subject), checkRecE q ns obj rel s 0 = .ok false)
  ∧ (∀ (store : List RelationTuple) (gmax : Nat) (t : RelationTuple) (d : Int),
      CheckIsMemberE (okQuery store) gmax t d = .ok (CheckIsMember store gmax t d))
  ∧ (∀ e : EngineError, e = .storeUnavailable ∨ e = .invalidTuple ∨ e = .cancelled)
  ∧ CheckIsMemberE (okQuery maxDepthStore) 5 mdTarget 2 = .ok false
  ∧ CheckIsMemberE (okQuery maxDepthStore) 5 mdTarget 3 = .ok true := by
  refine ⟨fun _ _ _ _ _ => rfl, ?_, ?_, ?_, ?_⟩
  · intro store gmax t d
    exact checkRecE_okQuery store _ t.ns t.obj t.rel t.subject
  · intro e; cases e <;> decide
  · rfl
  · rfl

/-- C6 counterexample: with the four-level chain stored and the default
global limit 5, the check at per-request depth 0 (effective budget 5)
succeeds, yet the check at the larger per-request depth 3 (effective
budget 3) fails, although 0 is at most 3: monotonicity in the raw
per-request depth fails for non-positive depths, which the engine maps
to the full global budget. -/
theorem C6_counterexample :
    (0 : Int) ≤ 3
  ∧ CheckIsMember chainStore 5 chainTarget 0 = true
  ∧ CheckIsMember chainStore 5 chainTarget 3 = false := by
  exact ⟨by decide, by decide, by decide⟩

/-- C6 amended: depth monotonicity holds for positive per-request
depths: for every store, global limit and target tuple, if
CheckIsMember succeeds at depth d with 0 less than d, it succeeds at
every depth at least d. -/
theorem C6_depth_monotonicity_amended (store : List RelationTuple) (g : Nat)
    (t : RelationTuple) (d d' : Int) (h0 : 0 < d) (h : d ≤ d')
    (ht : CheckIsMember store g t d = true) :
    CheckIsMember store g t d' = true :=
  checkRec_mono store t.ns t.obj t.rel t.subject (effectiveDepth_mono g h0 h) ht

/-- C6 witness: the max-depth fixture succeeds at depth 3, hence at
depth 4. -/
theorem C6_witness : CheckIsMember maxDepthStore 5 mdTarget 4 = true :=
  C6_depth_monotonicity_amended maxDepthStore 5 mdTarget 3 4 (by decide) (by decide) (by decide)

/-- C7: a SubjectSet subject with an empty relation written with a
trailing hash and one with the hash omitted parse to the same subject,
and inserting a tuple whose subject uses either form makes
CheckIsMember true for a query tuple whose subject uses either form
(for any positive global limit). -/
theorem C7_hash_forms (ns obj : List Char) (hns : ':' ∉ ns) (hobj : '#' ∉ obj) :
    parseSubject (ns ++ ':' :: (obj ++ ['#'])) = .subjectSet ns.asString obj.asString ""
  ∧ parseSubject (ns ++ ':' :: obj) = .subjectSet ns.asString obj.asString ""
  ∧ ∀ (n o r : String) (g : Nat) (d : Int), 0 < g →
      CheckIsMember [⟨n, o, r, parseSubject (ns ++ ':' :: (obj ++ ['#']))⟩] g
        ⟨n, o, r, parseSubject (ns ++ ':' :: obj)⟩ d = true
    ∧ CheckIsMember [⟨n, o, r, parseSubject (ns ++ ':' :: obj)⟩] g
        ⟨n, o, r, parseSubject (ns ++ ':' :: (obj ++ ['#']))⟩ d = true := by
  have h1 : parseSubject (ns ++ ':' :: (obj ++ ['#'])) = .subjectSet ns.asString obj.asString "" := by
    simp only [parseSubject, splitFirst_append (obj ++ ['#']) hns, splitFirst_append [] hobj]
    rfl
  have h2 : parseSubject (ns ++ ':' :: obj) = .subjectSet ns.asString obj.asString "" := by
    simp only [parseSubject, splitFirst_append obj hns, splitFirst_not_mem hobj]
  refine ⟨h1, h2, fun n o r g d hg => ?_⟩
  rw [h1, h2]
  exact ⟨CheckIsMember_direct_self n o r _ g d hg, CheckIsMember_direct_self n o r _ g d hg⟩

/-- C7 witness at concrete identifiers. -/
theorem C7_witness :
    parseSubject (['u'] ++ ':' :: (['x'] ++ ['#'])) = .subjectSet "u" "x" ""
  ∧ CheckIsMember [⟨"n", "o", "r", parseSubject (['u'] ++ ':' :: (['x'] ++ ['#']))⟩] 5
      ⟨"n", "o", "r", parseSubject (['u'] ++ ':' :: ['x'])⟩ 0 = true := by
  obtain ⟨h1, h2, h3⟩ := C7_hash_forms ['u'] ['x'] (by decide) (by decide)
  exact ⟨h1, (h3 "n" "o" "r" 5 0 (by decide)).1⟩

/-- External (wire-level) SubjectSet of the ketoapi package. -/
structure ApiSubjectSet where
  ns : String
  obj : String
  rel : String
deriving DecidableEq, Repr

/-- External (wire-level) relation tuple of the ketoapi package: the
subject is carried by at most one of the two optional fields. -/
structure ApiRelationTuple where
  ns : String
  obj : String
  rel : String
  subjectID : Option String
  subjectSet : Option ApiSubjectSet
deriving DecidableEq, Repr

/-- Modelled from the spec: the structural invariants of section 3
enforced by the ketoapi Validate method (the ketoapi package is not in
this source tree): namespace, object and relation are non-empty
strings and the subject is exactly one of the two variants. -/
def ApiRelationTuple.validate (t : ApiRelationTuple) : Bool :=
  decide (t.ns ≠ "" ∧ t.obj ≠ "" ∧ t.rel ≠ "") &&
  (match t.subjectID, t.subjectSet with
   | some _, none => true
   | none, some _ => true
   | _, _ => false)

/-- Patch action literal for inserts (ketoapi.ActionInsert). -/
def ActionInsert : String := "insert"

/-- Patch action literal for deletes (ketoapi.ActionDelete). -/
def ActionDelete : String := "delete"

/-- A patch delta: an action string and an optional (pointer) relation
tuple, as decoded from the PATCH request body. -/
structure PatchDelta where
  action : String
  relationTuple : Option ApiRelationTuple
deriving DecidableEq, Repr

/-- Error kinds surfaced by the write/patch facade. -/
inductive PatchError where
  | invalidTuple
  | invalidAction
  | namespaceUnknown
  | storeUnavailable
deriving DecidableEq, Repr

/-- The validation loop of patchRelationTuples (transact_server.go,
lines 242 to 258): each delta in order must carry a relation tuple,
the tuple must satisfy the structural invariants, and the action must
be insert or delete; the first offence aborts with the matching
error. -/
def validateDeltas : List PatchDelta → Except PatchError Unit
  | [] => .ok ()
  | d :: ds =>
    match d.relationTuple with
    | none => .error .invalidTuple
    | some t =>
      if t.validate then
        if d.action = ActionInsert ∨ d.action = ActionDelete then validateDeltas ds
        else .error .invalidAction
      else .error .invalidTuple

/-- internalTuplesWithAction (transact_server.go, lines 206 to 213):
collect, in input order, the relation tuples of the deltas carrying
the given action. -/
def internalTuplesWithAction : List PatchDelta → String → List (Option ApiRelationTuple)
  | [], _ => []
  | d :: ds, action =>
    if d.action = action then d.relationTuple :: internalTuplesWithAction ds action
    else internalTuplesWithAction ds action

/-- patchRelationTuples (transact_server.go, lines 234 to 280), with
the JSON decoding of the request body elided and the identifier mapper
and the store's transactional apply abstracted as parameters: validate
every delta, partition into insert and delete lists, map all external
identifiers in one mapper call over inserts followed by deletes, split
the mapped list at the insert count and hand both parts to the
transactional apply. -/
def patchRelationTuples {ι : Type}
    (mapper : List (Option ApiRelationTuple) → Except PatchError (List ι))
    (transact : List ι → List ι → Except PatchError Unit)
    (deltas : List PatchDelta) : Except PatchError Unit :=
  match validateDeltas deltas with
  | .error e => .error e
  | .ok _ =>
    match mapper (internalTuplesWithAction deltas ActionInsert
        ++ internalTuplesWithAction deltas ActionDelete) with
    | .error e => .error e
    | .ok its =>
      transact (its.take (internalTuplesWithAction deltas ActionInsert).length)
        (its.drop (internalTuplesWithAction deltas ActionInsert).length)

/-- The delta carries a relation tuple satisfying the structural
invariants. -/
def deltaTupleOK (d : PatchDelta) : Bool :=
  match d.relationTuple with
  | none => false
  | some t => t.validate

/-- The delta's action is insert or delete. -/
def deltaActionOK (d : PatchDelta) : Bool :=
  decide (d.action = ActionInsert ∨ d.action = ActionDelete)

lemma validateDeltas_invalidTuple :
    ∀ {deltas : List PatchDelta}, (∀ d ∈ deltas, deltaActionOK d = true) →
      (∃ d ∈ deltas, deltaTupleOK d = false) →
      validateDeltas deltas = .error .invalidTuple
  | [], _, he => by simp at he
  | d :: ds, ha, he => by
    simp only [validateDeltas]
    cases hrt : d.relationTuple with
    | none => rfl
    | some t =>
      dsimp only
      by_cases hv : t.validate = true
      · have hact : d.action = ActionInsert ∨ d.action = ActionDelete := by
          simpa [deltaActionOK] using ha d (List.mem_cons_self d ds)
        have htail : ∃ d0 ∈ ds, deltaTupleOK d0 = false := by
          rcases he with ⟨d0, hd0, hbad⟩
          rcases List.mem_cons.mp hd0 with rfl | hmem
          · unfold deltaTupleOK at hbad
            rw [hrt] at hbad
            simp [hv] at hbad
          · exact ⟨d0, hmem, hbad⟩
        rw [if_pos hv, if_pos hact]
        exact validateDeltas_invalidTuple
          (fun d0 h0 => ha d0 (List.mem_cons_of_mem d h0)) htail
      · rw [if_neg hv]

lemma validateDeltas_invalidAction :
    ∀ {deltas : List PatchDelta}, (∀ d ∈ deltas, deltaTupleOK d = true) →
      (∃ d ∈ deltas, deltaActionOK d = false) →
      validateDeltas deltas = .error .invalidAction
  | [], _, he => by simp at he
  | d :: ds, ht, he => by
    have hok : deltaTupleOK d = true := ht d (List.mem_cons_self d ds)
    simp only [validateDeltas]
    cases hrt : d.relationTuple with
    | none =>
      unfold deltaTupleOK at hok
      rw [hrt] at hok
      simp at hok
    | some t =>
      dsimp only
      have hv : t.validate = true := by
        unfold deltaTupleOK at hok
        rw [hrt] at hok
        simpa using hok
      rw [if_pos hv]
      by_cases hact : d.action = ActionInsert ∨ d.action = ActionDelete
      · rw [if_pos hact]
        have htail : ∃ d0 ∈ ds, deltaActionOK d0 = false := by
          rcases he with ⟨d0, hd0, hbad⟩
          rcases List.mem_cons.mp hd0 with rfl | hmem
          · unfold deltaActionOK at hbad
            simp [hact] at hbad
          · exact ⟨d0, hmem, hbad⟩
        exact validateDeltas_invalidAction
          (fun d0 h0 => ht d0 (List.mem_cons_of_mem d h0)) htail
      · rw [if_neg hact]

lemma validateDeltas_error :
    ∀ {deltas : List PatchDelta},
      (∃ d ∈ deltas, deltaTupleOK d = false ∨ deltaActionOK d = false) →
      ∃ e, validateDeltas deltas = .error e
  | [], he => by simp at he
  | d :: ds, he => by
    simp only [validateDeltas]
    cases hrt : d.relationTuple with
    | none => exact ⟨.invalidTuple, rfl⟩
    | some t =>
      dsimp only
      by_cases hv : t.validate = true
      · by_cases hact : d.action = ActionInsert ∨ d.action = ActionDelete
        · rw [if_pos hv, if_pos hact]
          apply validateDeltas_error
          rcases he with ⟨d0, hd0, hbad⟩
          rcases List.mem_cons.mp hd0 with rfl | hmem
          · exfalso
            rcases hbad with hb | hb
            · unfold deltaTupleOK at hb
              rw [hrt] at hb
              simp [hv] at hb
            · unfold deltaActionOK at hb
              simp [hact] at hb
          · exact ⟨d0, hmem, hbad⟩
        · exact ⟨.invalidAction, by rw [if_pos hv, if_neg hact]⟩
      · exact ⟨.invalidTuple, by rw [if_neg hv]⟩

/-- C4: the patch facade validates every delta before applying any:
with every action known, a batch containing any structurally invalid
or missing tuple is aborted whole with invalid-tuple; with every tuple
valid, a batch containing any unknown action is rejected whole with
invalid-action; and whenever any delta offends, the outcome is the
same error for every identifier mapper and every transactional apply,
so neither is invoked and nothing is persisted. -/
theorem C4_validate_before_apply {ι : Type}
    (mapper : List (Option ApiRelationTuple) → Except PatchError (List ι))
    (transact : List ι → List ι → Except PatchError Unit)
    (deltas : List PatchDelta) :
    ((∀ d ∈ deltas, deltaActionOK d = true) → (∃ d ∈ deltas, deltaTupleOK d = false) →
      patchRelationTuples mapper transact deltas = .error .invalidTuple)
  ∧ ((∀ d ∈ deltas, deltaTupleOK d = true) → (∃ d ∈ deltas, deltaActionOK d = false) →
      patchRelationTuples mapper transact deltas = .error .invalidAction)
  ∧ ((∃ d ∈ deltas, deltaTupleOK d = false ∨ deltaActionOK d = false) →
      ∃ e, ∀ (κ : Type) (m2 : List (Option ApiRelationTuple) → Except PatchError (List κ))
        (t2 : List κ → List κ → Except PatchError Unit),
          patchRelationTuples m2 t2 deltas = .error e) := by
  refine ⟨fun ha he => ?_, fun ht he => ?_, fun he => ?_⟩
  · unfold patchRelationTuples
    rw [validateDeltas_invalidTuple ha he]
  · unfold patchRelationTuples
    rw [validateDeltas_invalidAction ht he]
  · obtain ⟨e, hee⟩ := validateDeltas_error he
    refine ⟨e, fun κ m2 t2 => ?_⟩
    unfold patchRelationTuples
    rw [hee]

/-- C4 witness: a single delta with a missing tuple is rejected with
invalid-tuple, for a concrete mapper and transactional apply. -/
theorem C4_witness :
    patchRelationTuples (fun l => .ok l) (fun _ _ => .ok ()) [⟨"insert", none⟩] =
      .error .invalidTuple :=
  (C4_validate_before_apply (fun l => .ok l) (fun _ _ => .ok ())
    [⟨"insert", none⟩]).1 (by decide) (by decide)

lemma internalTuplesWithAction_eq_filter :
    ∀ (deltas : List PatchDelta) (a : String),
      internalTuplesWithAction deltas a =
        (deltas.filter (fun d => decide (d.action = a))).map (fun d => d.relationTuple)
  | [], _ => rfl
  | d :: ds, a => by
    by_cases h : d.action = a <;>
      simp [internalTuplesWithAction, List.filter, h,
        internalTuplesWithAction_eq_filter ds a]

/-- C8: the facade partitions the deltas into an insert list and a
delete list preserving input order within each (collecting by action
is filtering), maps all external identifiers in a single mapper call
over the inserts followed by the deletes, splits the mapped result at
the insert count, and passes both parts to the store's transactional
apply; a batch failing validation stops at the validation error. -/
theorem C8_partition_map_split {ι : Type}
    (mapper : List (Option ApiRelationTuple) → Except PatchError (List ι))
    (transact : List ι → List ι → Except PatchError Unit)
    (deltas : List PatchDelta) :
    (∀ a : String, internalTuplesWithAction deltas a =
        (deltas.filter (fun d => decide (d.action = a))).map (fun d => d.relationTuple))
  ∧ (internalTuplesWithAction deltas ActionInsert).length =
      (deltas.filter (fun d => decide (d.action = ActionInsert))).length
  ∧ patchRelationTuples mapper transact deltas =
      (match validateDeltas deltas with
       | .error e => .error e
       | .ok _ =>
         match mapper
             (((deltas.filter (fun d => decide (d.action = ActionInsert))).map
                 (fun d => d.relationTuple))
               ++ ((deltas.filter (fun d => decide (d.action = ActionDelete))).map
                 (fun d => d.relationTuple))) with
         | .error e => .error e
         | .ok its =>
           transact
             (its.take (deltas.filter (fun d => decide (d.action = ActionInsert))).length)
             (its.drop (deltas.filter (fun d => decide (d.action = ActionInsert))).length)) := by
  refine ⟨internalTuplesWithAction_eq_filter deltas, ?_, ?_⟩
  · rw [internalTuplesWithAction_eq_filter]
    exact List.length_map _ _
  · unfold patchRelationTuples
    rw [internalTuplesWithAction_eq_filter deltas ActionInsert,
      internalTuplesWithAction_eq_filter deltas ActionDelete, List.length_map]

/-- A proto relation-tuple delta of the gRPC write service: the action
is the wire enum value and the tuple payload is left abstract. -/
structure ProtoDelta (τ : Type) where
  action : Int
  relationTuple : τ

/-- Wire value of the proto enum member ACTION_INSERT. -/
def ACTION_INSERT : Int := 1

/-- Wire value of the proto enum member ACTION_DELETE. -/
def ACTION_DELETE : Int := 2

/-- protoTuplesWithAction (transact_server.go, lines 24 to 35): for
the deltas carrying the given action, in input order, convert the
proto tuple to the external form (conversion abstracted as conv, for
the ketoapi FromDataProvider call); the first conversion error aborts.
Deltas with any other action are never examined. -/
def protoTuplesWithAction {τ : Type} (conv : τ → Except PatchError ApiRelationTuple) :
    List (ProtoDelta τ) → Int → Except PatchError (List ApiRelationTuple)
  | [], _ => .ok []
  | d :: ds, action =>
    if d.action = action then
      match conv d.relationTuple with
      | .error e => .error e
      | .ok it =>
        match protoTuplesWithAction conv ds action with
        | .error e => .error e
        | .ok rest => .ok (it :: rest)
    else protoTuplesWithAction conv ds action

/-- Modelled from the spec: the tuple store's transactional batch
apply (section 4.2), which is not in this source tree: insertion is
idempotent, deletion removes the exact matches, and the batch is
atomic; the model applies the inserts and then the deletes to the
stored set. -/
def transactTuples (store ins del : List RelationTuple) : List RelationTuple :=
  (store ++ ins.filter (fun t => decide (t ∉ store))).filter (fun t => decide (t ∉ del))

/-- TransactRelationTuples (transact_server.go, lines 37 to 65), the
gRPC write handler, over an abstract proto-tuple conversion, an
abstract identifier mapper and the modelled store: convert the insert
deltas, then the delete deltas, map the concatenation in one mapper
call, split at the insert count, apply transactionally, and
acknowledge with one placeholder snaptoken per insert. -/
def TransactRelationTuples {τ : Type} (conv : τ → Except PatchError ApiRelationTuple)
    (mapper : List ApiRelationTuple → Except PatchError (List RelationTuple))
    (store : List RelationTuple) (deltas : List (ProtoDelta τ)) :
    Except PatchError (List RelationTuple × List String) :=
  match protoTuplesWithAction conv deltas ACTION_INSERT with
  | .error e => .error e
  | .ok insertTuples =>
    match protoTuplesWithAction conv deltas ACTION_DELETE with
    | .error e => .error e
    | .ok deleteTuples =>
      match mapper (insertTuples ++ deleteTuples) with
      | .error e => .error e
      | .ok its =>
        .ok (transactTuples store (its.take insertTuples.length) (its.drop insertTuples.length),
          insertTuples.map (fun _ => "not yet implemented"))

lemma protoTuplesWithAction_filter {τ : Type} (conv : τ → Except PatchError ApiRelationTuple)
    (p : ProtoDelta τ → Bool) :
    ∀ (deltas : List (ProtoDelta τ)) (a : Int), (∀ d, d.action = a → p d = true) →
      protoTuplesWithAction conv (deltas.filter p) a = protoTuplesWithAction conv deltas a
  | [], _, _ => rfl
  | d :: ds, a, hp => by
    have IH := protoTuplesWithAction_filter conv p ds a hp
    by_cases hpd : p d = true
    · rw [show (d :: ds).filter p = d :: ds.filter p by simp [List.filter_cons, hpd]]
      by_cases hd : d.action = a
      · simp only [protoTuplesWithAction, if_pos hd]
        cases conv d.relationTuple with
        | error e => rfl
        | ok it => rw [IH]
      · simp only [protoTuplesWithAction, if_neg hd]
        exact IH
    · have hd : d.action ≠ a := fun h => hpd (hp d h)
      simp only [Bool.not_eq_true] at hpd
      rw [show (d :: ds).filter p = ds.filter p by simp [List.filter_cons, hpd]]
      rw [IH]
      simp only [protoTuplesWithAction, if_neg hd]

lemma protoTuplesWithAction_none {τ : Type} (conv : τ → Except PatchError ApiRelationTuple) :
    ∀ (deltas : List (ProtoDelta τ)) (a : Int), (∀ d ∈ deltas, d.action ≠ a) →
      protoTuplesWithAction conv deltas a = .ok []
  | [], _, _ => rfl
  | d :: ds, a, h => by
    simp only [protoTuplesWithAction, if_neg (h d (List.mem_cons_self d ds))]
    exact protoTuplesWithAction_none conv ds a (fun d0 h0 => h d0 (List.mem_cons_of_mem d h0))

lemma transactTuples_nil (store : List RelationTuple) :
    transactTuples store [] [] = store := by
  unfold transactTuples
  rw [List.filter_nil, List.append_nil]
  apply List.filter_eq_self.mpr
  intro a _
  simp

/-- C10: in the gRPC TransactRelationTuples handler a delta whose
action is neither ACTION_INSERT nor ACTION_DELETE is silently dropped,
never converted and never rejected: removing all such deltas does not
change the handler's result, and a request consisting solely of
unknown-action deltas succeeds with an empty snaptoken list while
leaving the store unchanged, for every conversion function, even an
always-failing one. -/
theorem C10_unknown_actions_dropped {τ : Type}
    (conv : τ → Except PatchError ApiRelationTuple)
    (mapper : List ApiRelationTuple → Except PatchError (List RelationTuple))
    (store : List RelationTuple) (deltas : List (ProtoDelta τ)) :
    (TransactRelationTuples conv mapper store
        (deltas.filter (fun d => decide (d.action = ACTION_INSERT ∨ d.action = ACTION_DELETE)))
      = TransactRelationTuples conv mapper store deltas)
  ∧ ((∀ d ∈ deltas, d.action ≠ ACTION_INSERT ∧ d.action ≠ ACTION_DELETE) →
      mapper [] = .ok [] →
      TransactRelationTuples conv mapper store deltas = .ok (store, [])) := by
  constructor
  · unfold TransactRelationTuples
    rw [protoTuplesWithAction_filter conv _ deltas ACTION_INSERT (fun d hd => by simp [hd]),
      protoTuplesWithAction_filter conv _ deltas ACTION_DELETE (fun d hd => by simp [hd])]
  · intro hu hm
    unfold TransactRelationTuples
    rw [protoTuplesWithAction_none conv deltas ACTION_INSERT (fun d hd => (hu d hd).1),
      protoTuplesWithAction_none conv deltas ACTION_DELETE (fun d hd => (hu d hd).2)]
    dsimp only
    rw [show ([] : List ApiRelationTuple) ++ [] = [] from rfl, hm]
    dsimp only
    rw [show (([] : List RelationTuple).take ([] : List ApiRelationTuple).length) = [] from rfl,
      show (([] : List RelationTuple).drop ([] : List ApiRelationTuple).length) = [] from rfl,
      transactTuples_nil, List.map_nil]

/-- C10 witness: two deltas with the unknown actions 0 and 7, an
always-failing conversion and a one-tuple store; the call succeeds
with no snaptokens and the store kept as is. -/
theorem C10_witness :
    TransactRelationTuples (τ := Unit) (fun _ => .error .invalidTuple) (fun _ => .ok [])
      [⟨"t", "o", "r", .subjectID "u"⟩] [⟨0, ()⟩, ⟨7, ()⟩] =
      .ok ([⟨"t", "o", "r", .subjectID "u"⟩], []) :=
  (C10_unknown_actions_dropped (fun _ => .error .invalidTuple) (fun _ => .ok [])
    [⟨"t", "o", "r", .subjectID "u"⟩] [⟨0, ()⟩, ⟨7, ()⟩]).2 (by decide) rfl

/-- External relation query of the ketoapi package: any subset of the
four fields (subject being one of two variants) may be specified;
unspecified fields match anything. -/
structure RelationQuery where
  ns : Option String
  obj : Option String
  rel : Option String
  subjectID : Option String
  subjectSet : Option ApiSubjectSet
deriving DecidableEq, Repr

/-- The query pattern specifies no field at all. -/
def isEmptyQuery (q : RelationQuery) : Bool :=
  q.ns.isNone && q.obj.isNone && q.rel.isNone && q.subjectID.isNone && q.subjectSet.isNone

/-- A stored tuple matches every specified field of the pattern. -/
def queryMatches (q : RelationQuery) (t : RelationTuple) : Bool :=
  (match q.ns with | none => true | some v => decide (t.ns = v)) &&
  (match q.obj with | none => true | some v => decide (t.obj = v)) &&
  (match q.rel with | none => true | some v => decide (t.rel = v)) &&
  (match q.subjectID with | none => true | some v => decide (t.subject = .subjectID v)) &&
  (match q.subjectSet with
   | none => true
   | some v => decide (t.subject = .subjectSet v.ns v.obj v.rel))

/-- Error kinds of the bulk-delete path. -/
inductive DeleteError where
  | invalidQuery
  | namespaceUnknown
  | storeUnavailable
deriving DecidableEq, Repr

/-- Modelled from the spec: the tuple store's DeleteAllRelationTuples
(section 4.2), which is not in this source tree: a fully empty pattern
is rejected with invalid-query and removes nothing; otherwise all
matching tuples are removed. -/
def DeleteAllRelationTuples (store : List RelationTuple) (q : RelationQuery) :
    Except DeleteError (List RelationTuple) :=
  if isEmptyQuery q then .error .invalidQuery
  else .ok (store.filter (fun t => ! queryMatches q t))

/-- Modelled from the spec: the identifier mapper's FromQuery (section
4.1), which is not in this source tree: specified object and subject
identifiers are mapped through the deterministic per-namespace mapping
f, a named namespace must be declared, and unspecified fields remain
unspecified. -/
def mapperFromQuery (nss : List String) (f : String → String) (q : RelationQuery) :
    Except DeleteError RelationQuery :=
  if (match q.ns with | none => true | some v => decide (v ∈ nss)) &&
      (match q.subjectSet with | none => true | some v => decide (v.ns ∈ nss)) then
    .ok ⟨q.ns, q.obj.map f, q.rel, q.subjectID.map f,
      q.subjectSet.map (fun v => ⟨v.ns, f v.obj, v.rel⟩)⟩
  else .error .namespaceUnknown

/-- Transport-level error of the delete handlers: the handlers pass
mapper errors through and wrap store errors as internal-server
errors. -/
inductive HandlerError where
  | badRequest
  | mapperError (e : DeleteError)
  | internalServer (e : DeleteError)
deriving DecidableEq, Repr

/-- deleteRelations (transact_server.go, lines 175 to 204), the HTTP
bulk-delete handler, with URL-query decoding elided: map the query,
run the store's bulk delete, and wrap a store failure as an
internal-server error. -/
def deleteRelations (nss : List String) (f : String → String)
    (store : List RelationTuple) (q : RelationQuery) :
    Except HandlerError (List RelationTuple) :=
  match mapperFromQuery nss f q with
  | .error e => .error (.mapperError e)
  | .ok iq =>
    match DeleteAllRelationTuples store iq with
    | .error e => .error (.internalServer e)
    | .ok s2 => .ok s2

/-- DeleteRelationTuples (transact_server.go, lines 67 to 88), the
gRPC bulk-delete handler: a request carrying no query at all is a bad
request; otherwise as the HTTP handler (the deprecated query field of
the request is collapsed into the one optional query). -/
def DeleteRelationTuples (nss : List String) (f : String → String)
    (store : List RelationTuple) (q : Option RelationQuery) :
    Except HandlerError (List RelationTuple) :=
  match q with
  | none => .error .badRequest
  | some q0 =>
    match mapperFromQuery nss f q0 with
    | .error e => .error (.mapperError e)
    | .ok iq =>
      match DeleteAllRelationTuples store iq with
      | .error e => .error (.internalServer e)
      | .ok s2 => .ok s2

/-- C9: bulk delete requires an at least partially specified pattern:
a fully empty pattern is rejected by the store contract with
invalid-query and removes nothing, and both the HTTP and the gRPC
delete handlers surface that rejection as an error instead of a new
store state, so no tuple is removed. -/
theorem C9_empty_pattern_rejected (nss : List String) (f : String → String)
    (store : List RelationTuple) (q : RelationQuery) (he : isEmptyQuery q = true) :
    DeleteAllRelationTuples store q = .error .invalidQuery
  ∧ deleteRelations nss f store q = .error (.internalServer .invalidQuery)
  ∧ DeleteRelationTuples nss f store (some q) = .error (.internalServer .invalidQuery) := by
  have hall : q.ns = none ∧ q.obj = none ∧ q.rel = none ∧ q.subjectID = none ∧
      q.subjectSet = none := by
    simpa [isEmptyQuery, Option.isNone_iff_eq_none, and_assoc] using he
  obtain ⟨h1, h2, h3, h4, h5⟩ := hall
  refine ⟨?_, ?_, ?_⟩
  · simp [DeleteAllRelationTuples, he]
  · simp [deleteRelations, mapperFromQuery, DeleteAllRelationTuples, isEmptyQuery,
      h1, h2, h3, h4, h5]
  · simp [DeleteRelationTuples, mapperFromQuery, DeleteAllRelationTuples, isEmptyQuery,
      h1, h2, h3, h4, h5]

/-- C9 witness: the all-unspecified pattern against a one-tuple store
is answered with the wrapped invalid-query error by the HTTP
handler. -/
theorem C9_witness :
    deleteRelations [] (fun s => s) [⟨"n", "o", "r", .subjectID "u"⟩]
      ⟨none, none, none, none, none⟩ = .error (.internalServer .invalidQuery) :=
  (C9_empty_pattern_rejected [] (fun s => s) [⟨"n", "o", "r", .subjectID "u"⟩]
    ⟨none, none, none, none, none⟩ (by decide)).2.1
